import Mathlib

/-!
Verification development for the Palcube automation repository.

The repository listens for Slack messages, triages them
(`slack_listener.py`, `SlackEventListener.should_process_message`),
derives Jira tickets (`create_jira_ticket_and_repository`), scores a
team roster for assignment (`tools/tools/action_items/assign_team_member.py`),
and provisions GitHub repositories
(`tools/tools/action_items/github_automation_simple.py` and
`github_automation.py`).

This file gives a shallow embedding of the deterministic logic of those
functions.  Python strings are modelled as Lean `String`s, but every
operation is carried out on the underlying code-point list (`String.data`)
so that all definitions evaluate inside the kernel.  External collaborators
(the Slack SDK, the Jira REST client, git subprocesses) are outside the
embedding; the embedded functions model the pure decision logic, with the
no-external-failure path where noted.
-/

namespace Palcube

/-! ### Python-style string primitives (code-point level) -/

/-- Python `needle.startswith`-style prefix test on code-point lists. -/
def isPref : List Char → List Char → Bool
  | [], _ => true
  | _ :: _, [] => false
  | c :: cs, d :: ds => c == d && isPref cs ds

/-- Python `needle in hay` substring test on code-point lists. -/
def listContains (hay needle : List Char) : Bool :=
  hay.tails.any (fun t => isPref needle t)

/-- Python `needle in hay` on strings. -/
def strContains (hay needle : String) : Bool :=
  listContains hay.data needle.data

/-- Python `str.lower()` (ASCII case mapping, which is all the sources use). -/
def pyLower (s : List Char) : List Char := s.map Char.toLower

/-- Python `s.startswith(p)` on strings. -/
def pyStartsWith (s p : String) : Bool := isPref p.data s.data

/-- Python truthiness of an optional string (`None` and `""` are falsy). -/
def pyTruthy (o : Option String) : Bool :=
  match o with
  | none => false
  | some s => !s.data.isEmpty

/-! ### `slack_listener.py`: message triage

`SlackEventListener.should_process_message` (lines 50-111).  An incoming
Slack event is modelled by the fields the function reads; a missing key
(`event.get(...)` returning `None`) is `none`.  The mutable
`self.processed_messages` set is threaded explicitly as a list of message
ids (a message id is itself `Option String` because
`event.get("client_msg_id") or event.get("ts")` can be `None`). -/

structure SlackEvent where
  eventType : Option String
  botId : Option String
  user : Option String
  clientMsgId : Option String
  ts : Option String
  text : Option String
deriving DecidableEq, Repr

/-- The hard-coded bot user id `"U09ADLT6360"` (lines 64, 81-82). -/
def botUserId : String := "U09ADLT6360"

/-- The local trigger-keyword list of `should_process_message` (lines 94-99);
this is the list the function actually consults (it shadows the
`self.trigger_keywords` field). -/
def triggerKeywords : List String :=
  ["bug", "issue", "problem", "error", "broken", "fix", "feature",
   "request", "task", "todo", "action", "ticket", "jira", "urgent",
   "critical", "blocker", "help", "support", "review", "pr", "pull request",
   "create", "new", "build", "develop", "implement", "add", "update"]

/-- `message_id = event.get("client_msg_id") or event.get("ts")` (line 69). -/
def messageIdOf (e : SlackEvent) : Option String :=
  if pyTruthy e.clientMsgId then e.clientMsgId else e.ts

/-- The mention test (lines 79-83): `"@Action Agent" in text or
"<@U09ADLT6360>" in text or "U09ADLT6360" in text`. -/
def hasMention (text : String) : Bool :=
  strContains text "@Action Agent" ||
  strContains text "<@U09ADLT6360>" ||
  strContains text "U09ADLT6360"

/-- The trigger-keyword test (line 101):
`any(keyword in text_lower for keyword in trigger_keywords)`. -/
def hasTrigger (text : String) : Bool :=
  triggerKeywords.any (fun kw => listContains (pyLower text.data) kw.data)

/-- `should_process_message` (lines 50-111), with the processed-message set
threaded explicitly.  Returns the boolean decision and the set after the
call; the set is only mutated by the `add` on line 109, immediately before
`return True`. -/
def should_process_message (processed : List (Option String)) (e : SlackEvent) :
    Bool × List (Option String) :=
  if e.eventType ≠ some "message" then (false, processed)
  else if pyTruthy e.botId || pyStartsWith (e.user.getD "") "B" then (false, processed)
  else if e.user = some botUserId || pyTruthy e.botId then (false, processed)
  else if messageIdOf e ∈ processed then (false, processed)
  else if !hasMention (e.text.getD "") then (false, processed)
  else if !hasTrigger (e.text.getD "") then (false, processed)
  else (true, messageIdOf e :: processed)

/-- The message ids accepted while folding `should_process_message` over a
sequence of incoming events, starting from a given processed set. -/
def acceptedIds (processed : List (Option String)) : List SlackEvent → List (Option String)
  | [] => []
  | e :: es =>
    let r := should_process_message processed e
    (if r.1 then [messageIdOf e] else []) ++ acceptedIds r.2 es

/-! ### `slack_listener.py`: ticket derivation -/

/-- Bug-bucket keywords of `create_jira_ticket_and_repository` (line 182). -/
def bugKeywords : List String := ["bug", "error", "broken", "fix"]

/-- Story-bucket keywords (line 184). -/
def storyKeywords : List String := ["feature", "request", "enhancement"]

/-- Issue-type derivation of `create_jira_ticket_and_repository`
(lines 180-187): an if/elif/else chain over the lower-cased text. -/
def determine_issue_type (messageText : String) : String :=
  let lowered := pyLower messageText.data
  if bugKeywords.any (fun w => listContains lowered w.data) then "Bug"
  else if storyKeywords.any (fun w => listContains lowered w.data) then "Story"
  else "Task"

/-- The ticket summary of `create_jira_ticket_and_repository` (line 210):
`f"Action Item: {message_text[:50]}..."`. -/
def ticket_summary (messageText : String) : String :=
  "Action Item: " ++ String.mk (messageText.data.take 50) ++ "..."

/-! ### `tools/tools/action_items/assign_team_member.py`: team-assignment scorer

The roster is modelled as the list of grouped-by-name member records
(`unique_members`, lines 150-159; names are unique after grouping), in the
deterministic iteration order of the dict.  The live workload refresh
(lines 140-148) and the Jira username verification (lines 217-239) are
external Jira calls; the embedding takes the workloads as given in the
member records and models the verification as succeeding, so the function
returns the member selected by the scoring loop (lines 161-215). -/

structure MemberInfo where
  name : String
  role : String
  expertise : List String
  current_workload : Nat
  availability : String
deriving DecidableEq, Repr

/-- `priority in ["Highest", "High"]` (line 188). -/
def isHighPriority (priority : String) : Bool :=
  priority = "Highest" || priority = "High"

/-- `any(exp.lower() in component.lower() for exp in member_info["expertise"])`
(lines 177, 182). -/
def expertiseMatch (expertise : List String) (item : String) : Bool :=
  expertise.any (fun e => listContains (pyLower item.data) (pyLower e.data))

/-- The `expertise_matches` counter (lines 174-183): one per component and
one per label whose lower-cased text contains one of the member's
lower-cased expertise tags. -/
def expertiseMatches (m : MemberInfo) (components labels : List String) : Nat :=
  (components.filter (expertiseMatch m.expertise)).length +
  (labels.filter (expertiseMatch m.expertise)).length

/-- One member's score (lines 167-207): workload base, expertise matches,
priority bonuses, the issue-type specialization if/elif chain, and the
availability bonus.  Scores are integers as in Python (the loop's initial
best score is `-1`). -/
def memberScore (issue_type priority : String) (components labels : List String)
    (m : MemberInfo) : Int :=
  max 0 (10 - (m.current_workload : Int)) * 3
  + (expertiseMatches m components labels : Int) * 2
  + (if isHighPriority priority && strContains m.role "Senior" then 5 else 0)
  + (if isHighPriority priority && strContains m.role "QA" && issue_type = "Bug"
     then 3 else 0)
  + (if issue_type = "Bug" && strContains m.role "QA" then 4
     else if issue_type = "Story" && strContains m.role "Developer" then 3
     else if issue_type = "Epic" && strContains m.role "Senior" then 8
     else if issue_type = "Task" && strContains m.role "Developer" then 3
     else 0)
  + (if m.availability = "Available" then 2 else 0)

/-- One iteration of the selection loop (lines 209-211):
`if score > best_score: best_score = score; best_member_name = member_name`. -/
def assignStep (score : MemberInfo → Int) (best : Option MemberInfo × Int)
    (m : MemberInfo) : Option MemberInfo × Int :=
  if score m > best.2 then (some m, score m) else best

/-- `assign_team_member` (lines 22-251) on the no-external-failure path:
the selection loop starting from `best_score = -1` (lines 162-163), the
first-member fallback when no best member was found (lines 213-215, an
`IndexError` on an empty roster), and the final catch-all
`raise Exception(f"Failed to assign team member: {str(e)}")` (line 251)
which turns that `IndexError` into the generic failure string. -/
def assign_team_member (issue_type priority : String) (components labels : List String)
    (roster : List MemberInfo) : Except String MemberInfo :=
  let score := memberScore issue_type priority components labels
  let best := roster.foldl (assignStep score) (none, -1)
  match best.1 with
  | some m => Except.ok m
  | none =>
    match roster.head? with
    | some m => Except.ok m
    | none => Except.error "Failed to assign team member: list index out of range"

/-- Modelled from the spec: the spec's error vocabulary (section 7) names a
distinct error kind `NoAssigneeAvailable` for an exhausted roster; no such
distinct error exists in the source, whose only failure is the generic
wrapped exception string.  This definition renders the spec's error kind in
the embedding's error representation so the claim about it can be stated. -/
def NoAssigneeAvailable : String := "NoAssigneeAvailable"

/-- The scoring formula exactly as the specification writes it
(spec section 4.3): `(10 − min(openItemCount, 10)) × 3` plus twice the
expertise-match count plus the role-bonus table read as independent rows
plus the availability bonus.  Used to compare the spec's formula with the
source's `memberScore`. -/
def specRoleBonus (priority issue_type role : String) : Int :=
  (if isHighPriority priority && strContains role "Senior" then 5 else 0)
  + (if isHighPriority priority && strContains role "QA" && issue_type = "Bug"
     then 3 else 0)
  + (if issue_type = "Bug" && strContains role "QA" then 4 else 0)
  + (if issue_type = "Story" && strContains role "Developer" then 3 else 0)
  + (if issue_type = "Epic" && strContains role "Senior" then 8 else 0)
  + (if issue_type = "Task" && strContains role "Developer" then 3 else 0)

/-- The spec's score formula (section 4.3), assembled from `specRoleBonus`. -/
def specScore (issue_type priority : String) (components labels : List String)
    (m : MemberInfo) : Int :=
  (10 - min (m.current_workload : Int) 10) * 3
  + 2 * (expertiseMatches m components labels : Int)
  + specRoleBonus priority issue_type m.role
  + (if m.availability = "Available" then 2 else 0)

/-! ### `tools/tools/action_items/github_automation_simple.py` -/

/-- Python `\s` on the ASCII range: the whitespace class used by the
`re.sub` calls in `_generate_repo_name`. -/
def pyIsSpace (c : Char) : Bool :=
  c == ' ' || c == '\t' || c == '\n' || c == '\x0b' || c == '\x0c' || c == '\r'

/-- The character class kept by `re.sub(r'[^a-zA-Z0-9\s-]', '', ...)`
(line 30). -/
def keepChar (c : Char) : Bool :=
  c.isAlpha || c.isDigit || pyIsSpace c || c == '-'

/-- `re.sub(r'\s+', '-', name)` (line 32): each maximal whitespace run
becomes a single hyphen. -/
def collapseWs : List Char → List Char
  | [] => []
  | [c] => if pyIsSpace c then ['-'] else [c]
  | c₁ :: c₂ :: rest =>
    if pyIsSpace c₁ then
      if pyIsSpace c₂ then collapseWs (c₂ :: rest)
      else '-' :: collapseWs (c₂ :: rest)
    else c₁ :: collapseWs (c₂ :: rest)

/-- Python `str.rstrip('-')`. -/
def rstripHyphen (l : List Char) : List Char :=
  (l.reverse.dropWhile (fun c => c == '-')).reverse

/-- Python `str.strip('-')` (line 34). -/
def stripHyphen (l : List Char) : List Char :=
  rstripHyphen (l.dropWhile (fun c => c == '-'))

/-- `_generate_repo_name` of `github_automation_simple.py`, lines 30-37:
lower-case, keep `[a-zA-Z0-9\s-]`, turn whitespace runs into single
hyphens, strip edge hyphens, truncate to 50 re-stripping trailing
hyphens. -/
def rawRepoName (taskTitle : String) : List Char :=
  let name := (pyLower taskTitle.data).filter keepChar
  let name := collapseWs name
  let name := stripHyphen name
  if name.length > 50 then rstripHyphen (name.take 50) else name

/-- `_generate_repo_name` of `github_automation_simple.py` (lines 27-41):
the normalization pipeline of `rawRepoName`, then the `repo-` prefix when
the first character is not a letter (lines 39-40), and the `new-project`
fallback for an empty result (line 41). -/
def generate_repo_name (taskTitle : String) : String :=
  let name := rawRepoName taskTitle
  let name :=
    match name with
    | [] => ([] : List Char)
    | c :: cs => if c.isAlpha then c :: cs else "repo-".data ++ c :: cs
  if name.isEmpty then "new-project" else String.mk name

/-- `_create_branch_structure` of `github_automation_simple.py`
(lines 83-119) on the success path of its git subprocesses: `branches`
starts as `["main", "develop"]` and only `"feature/initial-setup"` is ever
appended; the project type and the IBM-Watsonx flag are ignored. -/
def create_branch_structure_simple (projectType : String) (useIbmWatsonx : Bool) :
    List String :=
  let branches := ["main", "develop"]
  let branches := branches ++ ["feature/initial-setup"]
  branches

/-- `_create_branch_structure` of `github_automation.py` (lines 184-215) on
the success path of its git subprocesses: the fixed five-branch template
plus `feature/ibm-watsonx-integration` when `use_ibm_watsonx` is set. -/
def create_branch_structure (projectType : String) (useIbmWatsonx : Bool) :
    List String :=
  let branches := ["main"]
  let branches := branches ++ ["develop"]
  let branches := branches ++ ["feature/initial-setup"]
  let branches := branches ++ ["staging"]
  let branches := branches ++ ["hotfix/emergency-fixes"]
  if useIbmWatsonx then branches ++ ["feature/ibm-watsonx-integration"] else branches

/-- A concrete non-bot message event carrying a mention and trigger words:
the end-to-end scenario message of the spec (section 8), with a fresh
client message id. -/
def sampleEvent : SlackEvent :=
  { eventType := some "message", botId := none, user := some "U12345",
    clientMsgId := some "msg-1", ts := some "1700000000.000100",
    text := some "<@U09ADLT6360> we have a critical bug in login, please fix" }

/-- A concrete non-bot message event whose text has no agent mention. -/
def sampleNoMentionEvent : SlackEvent :=
  { eventType := some "message", botId := none, user := some "U12345",
    clientMsgId := some "msg-2", ts := some "1700000000.000200",
    text := some "please fix the login bug" }

/-- The end-to-end scenario message text (spec section 8). -/
def endToEndText : String :=
  "<@U09ADLT6360> we have a critical bug in login, please fix"

/-- A concrete one-member roster entry. -/
def soloMember : MemberInfo :=
  { name := "Solo", role := "Developer", expertise := ["backend"],
    current_workload := 2, availability := "Available" }

/-- A concrete developer with no expertise tag matching `"frontend-ui"`. -/
def devA : MemberInfo :=
  { name := "Alice", role := "Developer", expertise := ["backend"],
    current_workload := 0, availability := "Available" }

/-- A concrete developer identical to `devA` except for the expertise tag
`"frontend"`, which matches the component `"frontend-ui"`. -/
def devB : MemberInfo :=
  { name := "Bob", role := "Developer", expertise := ["frontend"],
    current_workload := 0, availability := "Available" }

/-- Reference form of the selection loop: the running best member after
scanning a list, starting from current best `b`; a later member replaces
the best only with a strictly greater score, so the first-scanned member
wins ties.  Used to reason about the `foldl` over `assignStep`. -/
def firstArgmax (f : MemberInfo → Int) (b : MemberInfo) : List MemberInfo → MemberInfo
  | [] => b
  | m :: rest => firstArgmax f (if f m > f b then m else b) rest

/-! ## Helper lemmas: triage -/

/-- The acceptance condition of `should_process_message`, unfolded. -/
lemma spm_accept_iff (s : List (Option String)) (e : SlackEvent) :
    (should_process_message s e).1 = true ↔
      (e.eventType = some "message"
       ∧ pyTruthy e.botId = false
       ∧ pyStartsWith (e.user.getD "") "B" = false
       ∧ e.user ≠ some botUserId
       ∧ messageIdOf e ∉ s
       ∧ hasMention (e.text.getD "") = true
       ∧ hasTrigger (e.text.getD "") = true) := by
  unfold should_process_message
  split_ifs with h1 h2 h3 h4 h5 h6 <;>
    simp_all [not_or, Bool.not_eq_true]
  intro hb hs _ _ _
  rcases h2 with h2 | h2 <;> simp_all

/-- `should_process_message` mutates the processed set exactly on
acceptance, by consing the message id. -/
lemma spm_state (s : List (Option String)) (e : SlackEvent) :
    (should_process_message s e).2 =
      (if (should_process_message s e).1 then messageIdOf e :: s else s) := by
  unfold should_process_message
  split_ifs <;> simp_all

/-- An already-recorded message id is rejected and the set is unchanged. -/
lemma spm_of_mem {s : List (Option String)} {e : SlackEvent}
    (h : messageIdOf e ∈ s) : should_process_message s e = (false, s) := by
  unfold should_process_message
  split_ifs <;> simp_all

/-- On acceptance the whole result is `(true, id :: s)` and the id was new. -/
lemma spm_true_eq {s : List (Option String)} {e : SlackEvent}
    (h : (should_process_message s e).1 = true) :
    should_process_message s e = (true, messageIdOf e :: s) ∧ messageIdOf e ∉ s := by
  refine ⟨?_, ((spm_accept_iff s e).1 h).2.2.2.2.1⟩
  have h2 := spm_state s e
  rw [h] at h2
  exact Prod.ext h h2

/-- On rejection the whole result is `(false, s)`. -/
lemma spm_false_eq {s : List (Option String)} {e : SlackEvent}
    (h : (should_process_message s e).1 = false) :
    should_process_message s e = (false, s) := by
  have h2 := spm_state s e
  rw [h] at h2
  exact Prod.ext h (by simpa using h2)

/-- The processed set only grows across a call. -/
lemma spm_superset {s : List (Option String)} {e : SlackEvent}
    {m : Option String} (h : m ∈ s) : m ∈ (should_process_message s e).2 := by
  rw [spm_state]
  split_ifs <;> simp [h]

/-- A message id already in the set is never accepted later, so it never
appears among the accepted ids of any continuation. -/
lemma acceptedIds_count_eq_zero {m : Option String} :
    ∀ (es : List SlackEvent) (s : List (Option String)),
      m ∈ s → (acceptedIds s es).count m = 0 := by
  intro es
  induction es with
  | nil => intro s _; simp [acceptedIds]
  | cons e es ih =>
    intro s hm
    rw [acceptedIds]
    rcases hb : (should_process_message s e).1 with _ | _
    · have := spm_false_eq hb
      simp only [this, List.count_append, hb]
      simpa using ih s hm
    · obtain ⟨heq, hnot⟩ := spm_true_eq hb
      have hne : messageIdOf e ≠ m := fun hc => hnot (hc ▸ hm)
      simp only [heq, hb, if_true, List.count_append]
      have h1 : ([messageIdOf e].count m) = 0 := by
        simp [List.count_singleton, hne]
      rw [h1]
      have : m ∈ messageIdOf e :: s := List.mem_cons_of_mem _ hm
      simpa using ih _ this

/-! ## Claim theorems: triage -/

/-- C1: at-most-once triggering.  Over any sequence of events handled by
`should_process_message` from any starting processed set, each message id
is accepted at most once; and once a call returns true for a message id,
a repeated submission of the same message is rejected. -/
theorem triage_at_most_once :
    (∀ (s : List (Option String)) (es : List SlackEvent) (m : Option String),
       (acceptedIds s es).count m ≤ 1)
    ∧ (∀ (s : List (Option String)) (e : SlackEvent),
       (should_process_message s e).1 = true →
         (should_process_message (should_process_message s e).2 e).1 = false) := by
  constructor
  · intro s es m
    induction es generalizing s with
    | nil => simp [acceptedIds]
    | cons e es ih =>
      rw [acceptedIds]
      rcases hb : (should_process_message s e).1 with _ | _
      · have heq := spm_false_eq hb
        simp only [heq, Bool.false_eq_true, if_false, List.nil_append]
        exact ih s
      · obtain ⟨heq, hnot⟩ := spm_true_eq hb
        simp only [heq, if_true, List.count_append]
        by_cases hm : messageIdOf e = m
        · subst hm
          have h0 := acceptedIds_count_eq_zero es (messageIdOf e :: s)
            (List.mem_cons_self _ _)
          simp [List.count_cons, h0]
        · have h0 : ([messageIdOf e].count m) = 0 := by
            simp [List.count_cons]
            exact hm
          rw [h0]
          simpa using ih (messageIdOf e :: s)
  · intro s e h
    obtain ⟨heq, _⟩ := spm_true_eq h
    rw [heq]
    have hmem : messageIdOf e ∈ messageIdOf e :: s := List.mem_cons_self _ _
    rw [spm_of_mem hmem]

/-- C1 witness: the sample event is accepted from the empty set, and its
immediate resubmission is rejected. -/
theorem triage_at_most_once_witness :
    (should_process_message [] sampleEvent).1 = true ∧
    (should_process_message (should_process_message [] sampleEvent).2 sampleEvent).1
      = false :=
  ⟨by decide, triage_at_most_once.2 [] sampleEvent (by decide)⟩

/-- C2: `should_process_message` accepts exactly when the event is a
message, the sender is not a bot (no `bot_id` marker, no `B`-prefixed
sender id, not the denylisted bot user id), the message id is not yet
processed, the text mentions the agent, and the lower-cased text contains
a trigger keyword — the rules checked in this order by the source's nested
short-circuit conditionals — and the message id is recorded exactly on
acceptance. -/
theorem should_process_characterization :
    ∀ (s : List (Option String)) (e : SlackEvent),
      ((should_process_message s e).1 = true ↔
        (e.eventType = some "message"
         ∧ pyTruthy e.botId = false
         ∧ pyStartsWith (e.user.getD "") "B" = false
         ∧ e.user ≠ some botUserId
         ∧ messageIdOf e ∉ s
         ∧ hasMention (e.text.getD "") = true
         ∧ hasTrigger (e.text.getD "") = true))
      ∧ ((should_process_message s e).2 =
          if (should_process_message s e).1 then messageIdOf e :: s else s) :=
  fun s e => ⟨spm_accept_iff s e, spm_state s e⟩

/-- C6: a message whose text lacks the agent mention is rejected and the
processed set is returned unchanged. -/
theorem no_mention_rejected_set_unchanged :
    ∀ (s : List (Option String)) (e : SlackEvent),
      hasMention (e.text.getD "") = false →
      should_process_message s e = (false, s) := by
  intro s e h
  rcases hb : (should_process_message s e).1 with _ | _
  · exact spm_false_eq hb
  · have := ((spm_accept_iff s e).1 hb).2.2.2.2.2.1
    simp_all

/-- C6 witness: a concrete mention-free message is rejected from the empty
set, which stays empty. -/
theorem no_mention_rejected_set_unchanged_witness :
    hasMention (sampleNoMentionEvent.text.getD "") = false ∧
    should_process_message [] sampleNoMentionEvent = (false, []) :=
  ⟨by decide, no_mention_rejected_set_unchanged [] sampleNoMentionEvent (by decide)⟩

/-! ## Claim theorems: ticket derivation -/

/-- C5: issue-type keyword buckets, applied in order: a bug-bucket word in
the lower-cased text gives `Bug`; otherwise a story-bucket word gives
`Story`; otherwise `Task`. -/
theorem issue_type_buckets :
    ∀ text : String,
      ((∃ w ∈ bugKeywords, listContains (pyLower text.data) w.data = true) →
        determine_issue_type text = "Bug")
      ∧ ((∀ w ∈ bugKeywords, listContains (pyLower text.data) w.data = false) →
         (∃ w ∈ storyKeywords, listContains (pyLower text.data) w.data = true) →
        determine_issue_type text = "Story")
      ∧ ((∀ w ∈ bugKeywords, listContains (pyLower text.data) w.data = false) →
         (∀ w ∈ storyKeywords, listContains (pyLower text.data) w.data = false) →
        determine_issue_type text = "Task") := by
  intro text
  refine ⟨?_, ?_, ?_⟩
  · rintro ⟨w, hw, hc⟩
    have hb : bugKeywords.any (fun w => listContains (pyLower text.data) w.data) = true :=
      List.any_eq_true.2 ⟨w, hw, hc⟩
    simp [determine_issue_type, hb]
  · intro hno ⟨w, hw, hc⟩
    have hb : bugKeywords.any (fun w => listContains (pyLower text.data) w.data) = false := by
      simp only [List.any_eq_false]
      intro w' hw'
      simp [hno w' hw']
    have hs : storyKeywords.any (fun w => listContains (pyLower text.data) w.data) = true :=
      List.any_eq_true.2 ⟨w, hw, hc⟩
    simp [determine_issue_type, hb, hs]
  · intro hnob hnos
    have hb : bugKeywords.any (fun w => listContains (pyLower text.data) w.data) = false := by
      simp only [List.any_eq_false]
      intro w' hw'
      simp [hnob w' hw']
    have hs : storyKeywords.any (fun w => listContains (pyLower text.data) w.data) = false := by
      simp only [List.any_eq_false]
      intro w' hw'
      simp [hnos w' hw']
    simp [determine_issue_type, hb, hs]

/-- C5 witness: the end-to-end scenario message resolves to `Bug`. -/
theorem issue_type_buckets_witness :
    determine_issue_type endToEndText = "Bug" :=
  (issue_type_buckets endToEndText).1 ⟨"bug", by decide, by decide⟩

/-- C9 counterexample: the summary is not just a fixed label followed by
the first 50 characters — the source also appends a fixed `"..."` suffix
(line 210), so no fixed label `L` makes `summary = L ++ take 50 text`:
taking `L` from the empty-text instance contradicts the one-character
instance. -/
theorem summary_label_cex :
    ¬ ∃ L : List Char, ∀ t : String,
        (ticket_summary t).data = L ++ t.data.take 50 := by
  rintro ⟨L, hL⟩
  have h1 := hL ""
  have h2 := hL "a"
  have e1 : (ticket_summary "").data = "Action Item: ...".data := by decide
  have e2 : (ticket_summary "a").data = "Action Item: a...".data := by decide
  have e3 : List.take 50 ("".data) = ([] : List Char) := by decide
  have e4 : List.take 50 ("a".data) = ['a'] := by decide
  rw [e1, e3, List.append_nil] at h1
  rw [e2, e4, ← h1] at h2
  exact absurd h2 (by decide)

/-- C9 amended: the ticket summary is the fixed label `"Action Item: "`,
then the first 50 characters of the message text, then the fixed suffix
`"..."`; the task-derived portion between the label (13 characters) and
the suffix is exactly the first 50 characters of the text. -/
theorem summary_structure :
    ∀ t : String,
      (ticket_summary t).data =
        "Action Item: ".data ++ t.data.take 50 ++ "...".data
      ∧ ((ticket_summary t).data.drop 13).take (t.data.take 50).length
          = t.data.take 50 := by
  intro t
  have hdata : (ticket_summary t).data =
      "Action Item: ".data ++ t.data.take 50 ++ "...".data := rfl
  refine ⟨hdata, ?_⟩
  rw [hdata, List.append_assoc]
  have h13 : ("Action Item: ".data).length = 13 := rfl
  rw [← h13, List.drop_left, List.take_left _ _]

/-! ## Helper lemmas: team-assignment scorer -/

/-- Every member score is non-negative (so every score beats the loop's
initial `best_score = -1`). -/
lemma memberScore_nonneg (it pr : String) (cs ls : List String) (m : MemberInfo) :
    0 ≤ memberScore it pr cs ls m := by
  unfold memberScore
  split_ifs <;> omega

/-- The source's score computation agrees with the spec's formula
(workload clamp written with `min`, role-bonus table read as independent
additive rows). -/
lemma memberScore_eq_specScore (it pr : String) (cs ls : List String) (m : MemberInfo) :
    memberScore it pr cs ls m = specScore it pr cs ls m := by
  unfold memberScore specScore specRoleBonus
  have hw : max 0 (10 - (m.current_workload : Int))
      = 10 - min (m.current_workload : Int) 10 := by omega
  rw [hw]
  by_cases hb : it = "Bug"
  · simp [hb]; ring
  · by_cases hs : it = "Story"
    · simp [hs, hb]; ring
    · by_cases he : it = "Epic"
      · simp [he, hb, hs]; ring
      · by_cases ht : it = "Task"
        · simp [ht, hb, hs, he]; ring
        · simp [hb, hs, he, ht]; ring

/-- The selection fold, once seeded with a real member, computes
`firstArgmax`. -/
lemma foldl_assignStep (f : MemberInfo → Int) :
    ∀ (l : List MemberInfo) (b : MemberInfo),
      l.foldl (assignStep f) (some b, f b) =
        (some (firstArgmax f b l), f (firstArgmax f b l)) := by
  intro l
  induction l with
  | nil => intro b; simp [firstArgmax]
  | cons m rest ih =>
    intro b
    rw [List.foldl_cons, firstArgmax]
    have hstep : assignStep f (some b, f b) m =
        (some (if f m > f b then m else b), f (if f m > f b then m else b)) := by
      unfold assignStep
      split_ifs <;> simp_all
    rw [hstep, ih]

/-- The running best never decreases in score. -/
lemma firstArgmax_base_le (f : MemberInfo → Int) :
    ∀ (l : List MemberInfo) (b : MemberInfo), f b ≤ f (firstArgmax f b l) := by
  intro l
  induction l with
  | nil => intro b; simp [firstArgmax]
  | cons m rest ih =>
    intro b
    rw [firstArgmax]
    rcases le_or_lt (f m) (f b) with h | h
    · rw [if_neg (not_lt.2 h)]
      exact ih b
    · rw [if_pos h]
      exact le_trans h.le (ih m)

/-- `firstArgmax` attains the maximum score over `b :: l`. -/
lemma firstArgmax_le (f : MemberInfo → Int) :
    ∀ (l : List MemberInfo) (b x : MemberInfo), x ∈ b :: l →
      f x ≤ f (firstArgmax f b l) := by
  intro l
  induction l with
  | nil =>
    intro b x hx
    rw [List.mem_singleton] at hx
    subst hx
    simp [firstArgmax]
  | cons m rest ih =>
    intro b x hx
    rw [firstArgmax]
    rcases List.mem_cons.1 hx with rfl | hx'
    · refine le_trans ?_ (firstArgmax_base_le f rest _)
      split_ifs with h
      · exact le_of_lt h
      · exact le_refl _
    · rcases List.mem_cons.1 hx' with rfl | hx''
      · refine le_trans ?_ (firstArgmax_base_le f rest _)
        split_ifs with h
        · exact le_refl _
        · exact not_lt.1 h
      · exact ih _ x (List.mem_cons_of_mem _ hx'')

/-- `firstArgmax` is the first-scanned maximizer: everything before it in
the scan order scores strictly less. -/
lemma firstArgmax_first (f : MemberInfo → Int) :
    ∀ (l : List MemberInfo) (b : MemberInfo), ∃ l1 l2,
      b :: l = l1 ++ (firstArgmax f b l) :: l2
      ∧ ∀ x ∈ l1, f x < f (firstArgmax f b l) := by
  intro l
  induction l with
  | nil => intro b; exact ⟨[], [], rfl, by simp⟩
  | cons m rest ih =>
    intro b
    rw [firstArgmax]
    rcases lt_or_le (f b) (f m) with h | h
    · rw [if_pos h]
      obtain ⟨l1, l2, hdecomp, hlt⟩ := ih m
      refine ⟨b :: l1, l2, ?_, ?_⟩
      · rw [List.cons_append, ← hdecomp]
      · intro x hx
        rcases List.mem_cons.1 hx with rfl | hx'
        · exact lt_of_lt_of_le h (firstArgmax_base_le f rest m)
        · exact hlt x hx'
    · rw [if_neg (not_lt.2 h)]
      obtain ⟨l1, l2, hdecomp, hlt⟩ := ih b
      cases l1 with
      | nil =>
        simp only [List.nil_append] at hdecomp
        injection hdecomp with h1 h2
        refine ⟨[], m :: l2, ?_, by simp⟩
        rw [List.nil_append, ← h1, h2]
      | cons y l1' =>
        simp only [List.cons_append] at hdecomp
        injection hdecomp with h1 h2
        have hbf : f b < f (firstArgmax f b rest) := by
          have := hlt y (List.mem_cons_self _ _)
          rw [← h1] at this
          exact this
        refine ⟨b :: m :: l1', l2, ?_, ?_⟩
        · simp only [List.cons_append]
          rw [← h2]
        · intro x hx
          rcases List.mem_cons.1 hx with rfl | hx'
          · exact hbf
          · rcases List.mem_cons.1 hx' with rfl | hx''
            · exact lt_of_le_of_lt h hbf
            · exact hlt x (List.mem_cons_of_mem _ hx'')

/-! ## Claim theorems: team-assignment scorer -/

/-- C3: on every non-empty roster the scorer returns (successfully) the
member maximizing the spec's score formula, ties broken in favor of the
first-scanned member of the roster order. -/
theorem scorer_selects_first_argmax :
    ∀ (it pr : String) (cs ls : List String) (roster : List MemberInfo),
      roster ≠ [] →
      ∃ m, assign_team_member it pr cs ls roster = .ok m
        ∧ (∀ x ∈ roster, specScore it pr cs ls x ≤ specScore it pr cs ls m)
        ∧ ∃ l1 l2, roster = l1 ++ m :: l2
            ∧ ∀ x ∈ l1, specScore it pr cs ls x < specScore it pr cs ls m := by
  intro it pr cs ls roster hne
  cases roster with
  | nil => exact absurd rfl hne
  | cons m0 rest =>
    have hstart : assignStep (memberScore it pr cs ls) (none, -1) m0
        = (some m0, memberScore it pr cs ls m0) := by
      unfold assignStep
      have h0 : (-1 : Int) < memberScore it pr cs ls m0 :=
        lt_of_lt_of_le (by norm_num) (memberScore_nonneg it pr cs ls m0)
      simp [h0]
    have hfold : List.foldl (assignStep (memberScore it pr cs ls)) (none, -1) (m0 :: rest)
        = (some (firstArgmax (memberScore it pr cs ls) m0 rest),
           memberScore it pr cs ls (firstArgmax (memberScore it pr cs ls) m0 rest)) := by
      rw [List.foldl_cons, hstart, foldl_assignStep]
    refine ⟨firstArgmax (memberScore it pr cs ls) m0 rest, ?_, ?_, ?_⟩
    · simp only [assign_team_member, hfold]
    · intro x hx
      rw [← memberScore_eq_specScore, ← memberScore_eq_specScore]
      exact firstArgmax_le _ rest m0 x hx
    · obtain ⟨l1, l2, hd, hlt⟩ := firstArgmax_first (memberScore it pr cs ls) rest m0
      refine ⟨l1, l2, hd, fun x hx => ?_⟩
      rw [← memberScore_eq_specScore, ← memberScore_eq_specScore]
      exact hlt x hx

/-- C3 witness: a singleton roster. -/
theorem scorer_selects_first_argmax_witness :
    ∃ m, assign_team_member "Bug" "High" ["backend-api"] [] [soloMember] = .ok m
      ∧ (∀ x ∈ [soloMember],
          specScore "Bug" "High" ["backend-api"] [] x
            ≤ specScore "Bug" "High" ["backend-api"] [] m)
      ∧ ∃ l1 l2, [soloMember] = l1 ++ m :: l2
          ∧ ∀ x ∈ l1,
              specScore "Bug" "High" ["backend-api"] [] x
                < specScore "Bug" "High" ["backend-api"] [] m :=
  scorer_selects_first_argmax "Bug" "High" ["backend-api"] [] [soloMember]
    (List.cons_ne_nil _ _)

/-- C7 counterexample: on an empty roster `assign_team_member` fails, but
with the generic wrapped-`IndexError` failure of its catch-all handler,
not with a distinct `NoAssigneeAvailable` error. -/
theorem empty_roster_error_cex :
    assign_team_member "Bug" "High" [] [] [] =
      .error "Failed to assign team member: list index out of range"
    ∧ "Failed to assign team member: list index out of range" ≠ NoAssigneeAvailable :=
  ⟨rfl, by decide⟩

/-- C7 amended: on an empty roster the scorer fails (never succeeds), with
the generic assignment-failure error produced by wrapping the fallback's
`IndexError`; no distinct `NoAssigneeAvailable` error kind exists. -/
theorem empty_roster_fails_generic :
    ∀ (it pr : String) (cs ls : List String),
      assign_team_member it pr cs ls [] =
        .error "Failed to assign team member: list index out of range" :=
  fun _ _ _ _ => rfl

/-- C10: scoring is monotone — a newly added component matching a member's
expertise raises exactly that member's score by exactly 2; raising a
member's workload never raises their score; and in a two-member roster
differing only by one matching expertise tag (workloads 0), the scorer
picks the matching member, whose score is higher by exactly 2. -/
theorem score_monotonicity :
    (∀ (it pr : String) (cs ls : List String) (m : MemberInfo) (c : String),
       expertiseMatch m.expertise c = true →
       memberScore it pr (c :: cs) ls m = memberScore it pr cs ls m + 2)
    ∧ (∀ (it pr : String) (cs ls : List String) (m : MemberInfo) (w w' : Nat),
       w ≤ w' →
       memberScore it pr cs ls { m with current_workload := w' }
         ≤ memberScore it pr cs ls { m with current_workload := w })
    ∧ (∀ (it pr : String) (cs ls : List String) (m1 m2 : MemberInfo),
       m1.role = m2.role → m1.availability = m2.availability →
       m1.current_workload = 0 → m2.current_workload = 0 →
       expertiseMatches m1 cs ls = 0 → expertiseMatches m2 cs ls = 1 →
       assign_team_member it pr cs ls [m1, m2] = .ok m2
         ∧ memberScore it pr cs ls m2 = memberScore it pr cs ls m1 + 2) := by
  refine ⟨?_, ?_, ?_⟩
  · intro it pr cs ls m c h
    unfold memberScore expertiseMatches
    simp only [List.filter_cons, h, if_true, List.length_cons]
    push_cast
    ring
  · intro it pr cs ls m w w' hww
    unfold memberScore expertiseMatches
    dsimp only
    have hmax : max 0 (10 - (w' : Int)) ≤ max 0 (10 - (w : Int)) := by omega
    gcongr
  · intro it pr cs ls m1 m2 hrole havail hw1 hw2 he1 he2
    have hscore : memberScore it pr cs ls m2 = memberScore it pr cs ls m1 + 2 := by
      unfold memberScore
      rw [hw1, hw2, he1, he2, hrole, havail]
      push_cast
      ring
    refine ⟨?_, hscore⟩
    have hlt : memberScore it pr cs ls m1 < memberScore it pr cs ls m2 := by
      rw [hscore]
      linarith
    have hs1 : assignStep (memberScore it pr cs ls) (none, -1) m1
        = (some m1, memberScore it pr cs ls m1) := by
      unfold assignStep
      have h0 : (-1 : Int) < memberScore it pr cs ls m1 :=
        lt_of_lt_of_le (by norm_num) (memberScore_nonneg it pr cs ls m1)
      simp [h0]
    have hs2 : assignStep (memberScore it pr cs ls)
        (some m1, memberScore it pr cs ls m1) m2
        = (some m2, memberScore it pr cs ls m2) := by
      unfold assignStep
      simp [hlt]
    simp only [assign_team_member, List.foldl_cons, List.foldl_nil, hs1, hs2]

/-- C10 witness: two otherwise-identical developers, the second with the
one matching expertise tag, workloads 0. -/
theorem score_monotonicity_witness :
    assign_team_member "Story" "High" ["frontend-ui"] [] [devA, devB] = .ok devB
      ∧ memberScore "Story" "High" ["frontend-ui"] [] devB
          = memberScore "Story" "High" ["frontend-ui"] [] devA + 2 :=
  score_monotonicity.2.2 "Story" "High" ["frontend-ui"] [] devA devB
    rfl rfl rfl rfl (by decide) (by decide)

/-! ## Claim theorems: repository provisioning -/

/-- C4 counterexample: the slug pipeline does not collapse repeated
separators — a hyphen surrounded by spaces yields three consecutive
hyphens (only whitespace runs are collapsed, pre-existing hyphens are
kept), so the derived slug contains a repeated separator. -/
theorem slug_collapse_cex :
    generate_repo_name "a - b" = "a---b"
    ∧ strContains "a---b" "--" = true :=
  ⟨by decide, by decide⟩

/-- C4 amended: slug derivation lower-cases the title, deletes characters
other than ASCII alphanumerics, whitespace and hyphens, replaces each
maximal whitespace run by a single hyphen (without collapsing pre-existing
hyphen runs), strips edge hyphens, truncates to 50 characters, prefixes
`repo-` when the result would not start with a letter, and falls back to
`new-project` when empty; `"Fix Login Bug!!"` yields `"fix-login-bug"`,
`"123 Urgent"` yields `"repo-123-urgent"`, and every derived slug starts
with an ASCII letter. -/
theorem slug_derivation :
    generate_repo_name "Fix Login Bug!!" = "fix-login-bug"
    ∧ generate_repo_name "123 Urgent" = "repo-123-urgent"
    ∧ ∀ t : String, ∃ c cs, (generate_repo_name t).data = c :: cs
        ∧ c.isAlpha = true := by
  refine ⟨by decide, by decide, ?_⟩
  intro t
  unfold generate_repo_name
  cases hraw : rawRepoName t with
  | nil =>
    exact ⟨'n', "ew-project".data, by decide, by decide⟩
  | cons c cs =>
    by_cases hc : c.isAlpha
    · refine ⟨c, cs, ?_, hc⟩
      simp only [hc, if_true]
      rfl
    · have hc' : c.isAlpha = false := by simpa using hc
      refine ⟨'r', "epo-".data ++ c :: cs, ?_, by decide⟩
      simp only [hc', Bool.false_eq_true, if_false]
      rfl

/-- C8 counterexample: the simplified provisioner (the one the Slack
listener imports) creates only three branches even with the
IBM-Watsonx flag set — `staging` and `hotfix/emergency-fixes` from the
claimed fixed template are absent, and no per-component branch exists. -/
theorem branch_template_cex :
    create_branch_structure_simple "web-application" true
      = ["main", "develop", "feature/initial-setup"]
    ∧ "staging" ∉ create_branch_structure_simple "web-application" true :=
  ⟨rfl, by decide⟩

/-- C8 amended: the full automation's branch set is exactly the fixed
five-branch template plus `feature/ibm-watsonx-integration` when the
IBM-Watsonx flag is set (no branch per declared component/label), and the
simplified variant used by the Slack listener always creates exactly
`main`, `develop`, `feature/initial-setup`. -/
theorem branch_template :
    ∀ (pt : String) (flag : Bool),
      (∀ b : String, b ∈ create_branch_structure pt flag ↔
        (b ∈ ["main", "develop", "feature/initial-setup", "staging",
              "hotfix/emergency-fixes"]
         ∨ (flag = true ∧ b = "feature/ibm-watsonx-integration")))
      ∧ create_branch_structure_simple pt flag
          = ["main", "develop", "feature/initial-setup"] := by
  intro pt flag
  refine ⟨?_, rfl⟩
  intro b
  cases flag <;> simp [create_branch_structure] <;> tauto

end Palcube
